import Mathlib

/-!
Verification development for the MCPPortal gateway (Python sources under
`src/mcp_gateway/`).  The data model and the operations the claims concern are
embedded shallowly: Python dictionaries become insertion-ordered association
lists, datetimes become natural-number ticks, floats become rationals, and
fallible constructors return `Except`.  Each definition is translated from the
named source function.
-/

namespace MCPPortal

/-- Stand-in for an opaque JSON dictionary payload (Python `Dict[str, Any]`);
the verified operations never inspect these payloads, only move them around. -/
abbrev JsonDict := List (String × String)

/-- A single-character string holding an apostrophe (used by error-message
templates in `gateway.py`). -/
def squote : String := String.singleton (Char.ofNat 39)

/-! ## Insertion-ordered string-keyed maps (Python `dict`)

Python dicts preserve insertion order; assigning to an existing key updates the
value in place, assigning a fresh key appends.  `alookup` is `dict.get`,
`ainsert` is `d[k] = v`. -/

/-- Insertion-ordered association list modelling a Python `dict` with string
keys. -/
abbrev AList (α : Type) := List (String × α)

/-- Python `d.get(k)` / `k in d` lookup on an insertion-ordered dict. -/
def alookup {α : Type} (m : AList α) (k : String) : Option α :=
  (m.find? (fun p => p.1 = k)).map Prod.snd

/-- Python `d[k] = v`: update in place if the key exists, else append. -/
def ainsert {α : Type} (m : AList α) (k : String) (v : α) : AList α :=
  if m.any (fun p => p.1 = k) then
    m.map (fun p => if p.1 = k then (k, v) else p)
  else
    m ++ [(k, v)]

/-- The keys of the dict are pairwise distinct (holds for every real dict). -/
def keysNodup {α : Type} (m : AList α) : Prop :=
  (m.map Prod.fst).Nodup

/-! ## MCP data model (`models/mcp.py`, `models/gateway.py`) -/

/-- `MCPServerStatus` enum from `models/mcp.py`. -/
inductive MCPServerStatus
  | disconnected
  | connecting
  | connected
  | failed
  | reconnecting
deriving DecidableEq

/-- `MCPTool` from `models/mcp.py` (`inputSchema` payload kept opaque). -/
structure MCPTool where
  name : String
  description : String
  inputSchema : JsonDict
deriving DecidableEq

/-- `MCPResource` from `models/mcp.py`. -/
structure MCPResource where
  uri : String
  name : String
  description : Option String
  mimeType : Option String
deriving DecidableEq

/-- `MCPServer` from `models/mcp.py`; datetimes are ticks (`ℕ`). -/
structure MCPServer where
  name : String
  url : String
  status : MCPServerStatus := .disconnected
  capabilities : List String := []
  tools : List MCPTool := []
  resources : List MCPResource := []
  last_ping : Option ℕ := none
  last_error : Option String := none
  retry_count : ℕ := 0
  max_retries : ℕ := 3
  source : Option String := none
  enabled : Bool := false
deriving DecidableEq

/-- `AggregatedTool` from `models/mcp.py` (plain record; validation is
modelled separately by `AggregatedTool.construct`). -/
structure AggregatedTool where
  original_name : String
  prefixed_name : String
  server_name : String
  description : String
  parameters : JsonDict := []
deriving DecidableEq

/-- `AggregatedResource` from `models/mcp.py`. -/
structure AggregatedResource where
  original_uri : String
  prefixed_uri : String
  server_name : String
  name : String
  description : Option String := none
  mime_type : Option String := none
deriving DecidableEq

/-- The `validate_prefixed_name` field validator of `AggregatedTool`
(`models/mcp.py` lines 158-170).  It receives the candidate value `v` and
`info.data`, the dict of the fields validated so far.  Python truthiness on
strings: the inner check runs only when both `server_name` and
`original_name` are present and nonempty. -/
def validatePrefixedName (dataServerName : Option String)
    (dataOriginalName : Option String) (v : String) : Except String String :=
  match dataServerName, dataOriginalName with
  | some sn, some origN =>
      if sn ≠ "" ∧ origN ≠ "" then
        if v = sn ++ "." ++ origN then .ok v
        else .error ("Prefixed name must be " ++ squote ++ sn ++ "." ++ origN
          ++ squote ++ ", got " ++ squote ++ v ++ squote)
      else .ok v
  | _, _ => .ok v

/-- Pydantic construction of `AggregatedTool`.  Pydantic v2 validates fields
in declaration order (`original_name`, `prefixed_name`, `server_name`, ...),
so when `validate_prefixed_name` runs, `info.data` holds only
`original_name`; `info.data.get("server_name")` is `None`. -/
def AggregatedTool.construct (originalName prefixedName serverName
    description : String) (parameters : JsonDict) :
    Except String AggregatedTool :=
  match validatePrefixedName none (some originalName) prefixedName with
  | .error e => .error e
  | .ok v => .ok ⟨originalName, v, serverName, description, parameters⟩

/-! ## Aggregator (`core/aggregator.py`) -/

/-- Python `s.split(sep)` for a one-character separator, on character lists
(`"".split("-") == [""]`, trailing separators yield empty segments). -/
def splitOnChar (sep : Char) : List Char → List (List Char)
  | [] => [[]]
  | c :: cs =>
    if c = sep then [] :: splitOnChar sep cs
    else
      match splitOnChar sep cs with
      | [] => [[c]]
      | w :: ws => (c :: w) :: ws

/-- `MCPAggregator._generate_prefix` (aggregator.py lines 38-59).  The
strategy is the string passed at construction; `server_name.split("-")` and
`server_name[:8]` translate to a character split and a take. -/
def generatePfx (strategy : String) (serverName : String) : String :=
  if strategy = "server_name" then serverName
  else if strategy = "short_name" then
    let parts := splitOnChar (Char.ofNat 45) serverName.data
    if parts.length > 1 then ⟨parts.headD []⟩ else ⟨serverName.data.take 8⟩
  else if strategy = "none" then ""
  else serverName

/-- Multiplicity of a raw tool name across Connected servers, as collected by
`MCPAggregator._detect_conflicts` (aggregator.py lines 61-99). -/
def toolNameCount (servers : List MCPServer) (n : String) : ℕ :=
  ((servers.filter (fun s => s.status = .connected)).flatMap
    (fun s => s.tools.map (·.name))).count n

/-- Raw tool name is in `self._tool_conflicts` (multiplicity above 1). -/
def isToolConflict (servers : List MCPServer) (n : String) : Bool :=
  1 < toolNameCount servers n

/-- Multiplicity of a raw resource URI across Connected servers
(`_detect_conflicts`). -/
def resourceUriCount (servers : List MCPServer) (u : String) : ℕ :=
  ((servers.filter (fun s => s.status = .connected)).flatMap
    (fun s => s.resources.map (·.uri))).count u

/-- Raw resource URI is in `self._resource_conflicts`. -/
def isResourceConflict (servers : List MCPServer) (u : String) : Bool :=
  1 < resourceUriCount servers u

/-- Body of the tool loop of `MCPAggregator.aggregate_tools` (aggregator.py
lines 123-144): compute `needs_prefix` and the prefixed name, and build the
`AggregatedTool`.  Python string truthiness makes `prefix` count only when
nonempty. -/
def toolEntry (strategy : String) (conflict : String → Bool)
    (serverName : String) (t : MCPTool) : AggregatedTool :=
  let pfx := generatePfx strategy serverName
  let needsPfx : Bool := strategy ≠ "none" ∧ (conflict t.name ∨ pfx ≠ "")
  let prefixedName := if needsPfx ∧ pfx ≠ "" then pfx ++ "." ++ t.name else t.name
  { original_name := t.name
    prefixed_name := prefixedName
    server_name := serverName
    description := t.description
    parameters := t.inputSchema }

/-- Body of the resource loop of `MCPAggregator.aggregate_resources`
(aggregator.py lines 175-197). -/
def resourceEntry (strategy : String) (conflict : String → Bool)
    (serverName : String) (r : MCPResource) : AggregatedResource :=
  let pfx := generatePfx strategy serverName
  let needsPfx : Bool := strategy ≠ "none" ∧ (conflict r.uri ∨ pfx ≠ "")
  let prefixedUri := if needsPfx ∧ pfx ≠ "" then pfx ++ "://" ++ r.uri else r.uri
  { original_uri := r.uri
    prefixed_uri := prefixedUri
    server_name := serverName
    name := r.name
    description := r.description
    mime_type := r.mimeType }

/-- Insert one tool of a Connected server into `self._aggregated_tools`
(aggregator.py line 144). -/
def insertTool (strategy : String) (conflict : String → Bool)
    (serverName : String) (m : AList AggregatedTool) (t : MCPTool) :
    AList AggregatedTool :=
  let e := toolEntry strategy conflict serverName t
  ainsert m e.prefixed_name e

/-- Process one server in `aggregate_tools`: skip it unless Connected, else
fold its tools in order. -/
def serverToolsStep (strategy : String) (conflict : String → Bool)
    (m : AList AggregatedTool) (s : MCPServer) : AList AggregatedTool :=
  if s.status = .connected then
    s.tools.foldl (insertTool strategy conflict s.name) m
  else m

/-- The `self._aggregated_tools` dict after `MCPAggregator.aggregate_tools`
(aggregator.py lines 101-152): cleared, then rebuilt over the server list. -/
def aggregateToolsMap (strategy : String) (servers : List MCPServer) :
    AList AggregatedTool :=
  servers.foldl (serverToolsStep strategy (isToolConflict servers)) []

/-- Insert one resource of a Connected server into
`self._aggregated_resources` (aggregator.py line 197). -/
def insertResource (strategy : String) (conflict : String → Bool)
    (serverName : String) (m : AList AggregatedResource) (r : MCPResource) :
    AList AggregatedResource :=
  let e := resourceEntry strategy conflict serverName r
  ainsert m e.prefixed_uri e

/-- Process one server in `aggregate_resources`. -/
def serverResourcesStep (strategy : String) (conflict : String → Bool)
    (m : AList AggregatedResource) (s : MCPServer) : AList AggregatedResource :=
  if s.status = .connected then
    s.resources.foldl (insertResource strategy conflict s.name) m
  else m

/-- The `self._aggregated_resources` dict after
`MCPAggregator.aggregate_resources` (aggregator.py lines 154-205). -/
def aggregateResourcesMap (strategy : String) (servers : List MCPServer) :
    AList AggregatedResource :=
  servers.foldl (serverResourcesStep strategy (isResourceConflict servers)) []

/-! ## Lookup (`find_tool_by_name`, `find_resource_by_uri`) -/

/-- Replace the first underscore of a character list by a dot, as
`tool_name[:first_underscore] + "." + tool_name[first_underscore+1:]` does. -/
def replaceFirstUnderscoreChars : List Char → List Char
  | [] => []
  | c :: cs => if c = '_' then '.' :: cs else c :: replaceFirstUnderscoreChars cs

/-- `"_" in s` and the first-underscore rewrite of `find_tool_by_name`
(aggregator.py lines 224-228). -/
def hasUnderscore (s : String) : Bool := s.data.any (fun c => c = '_')

/-- The rewritten candidate tried by `find_tool_by_name`. -/
def firstUnderscoreToDot (s : String) : String :=
  ⟨replaceFirstUnderscoreChars s.data⟩

/-- `resource_uri.replace(chr(95), chr(46))` — every underscore becomes a dot
(aggregator.py line 256). -/
def allUnderscoresToDots (s : String) : String :=
  ⟨s.data.map (fun c => if c = '_' then '.' else c)⟩

/-- `MCPAggregator.find_tool_by_name` (aggregator.py lines 207-239): exact
prefixed match, then the first-underscore rewrite, then a scan over the
values for an original-name match, in insertion order. -/
def findToolByName (m : AList AggregatedTool) (toolName : String) :
    Option AggregatedTool :=
  match alookup m toolName with
  | some t => some t
  | none =>
    match (if hasUnderscore toolName then
             alookup m (firstUnderscoreToDot toolName)
           else none) with
    | some t => some t
    | none => (m.find? (fun p => p.2.original_name = toolName)).map Prod.snd

/-- `MCPAggregator.find_resource_by_uri` (aggregator.py lines 241-273): exact
prefixed match, then the all-underscores rewrite, then original-URI scans
against the raw and the rewritten query. -/
def findResourceByUri (m : AList AggregatedResource) (resourceUri : String) :
    Option AggregatedResource :=
  match alookup m resourceUri with
  | some r => some r
  | none =>
    match alookup m (allUnderscoresToDots resourceUri) with
    | some r => some r
    | none =>
      match (m.find? (fun p => p.2.original_uri = resourceUri)).map Prod.snd with
      | some r => some r
      | none =>
        (m.find? (fun p =>
          p.2.original_uri = allUnderscoresToDots resourceUri)).map Prod.snd

/-- Resource lookup as claim C3 words it (for refinement comparison only; NOT
translated from the source): the single rewritten candidate is the query with
its first underscore replaced by a dot, mirroring the tool lookup. -/
def findResourceByUriClaimed (m : AList AggregatedResource)
    (resourceUri : String) : Option AggregatedResource :=
  match alookup m resourceUri with
  | some r => some r
  | none =>
    match (if hasUnderscore resourceUri then
             alookup m (firstUnderscoreToDot resourceUri)
           else none) with
    | some r => some r
    | none =>
      match (m.find? (fun p => p.2.original_uri = resourceUri)).map Prod.snd with
      | some r => some r
      | none =>
        (m.find? (fun p =>
          p.2.original_uri = firstUnderscoreToDot resourceUri)).map Prod.snd

/-! ## Gateway statistics and metrics (`core/gateway.py`) -/

/-- `ServerStatistics` from `models/gateway.py`; the float average becomes a
rational, datetimes become ticks. -/
structure ServerStatistics where
  server_name : String
  total_requests : ℕ := 0
  successful_requests : ℕ := 0
  failed_requests : ℕ := 0
  average_response_time : ℚ := 0
  last_request : Option ℕ := none
  uptime : String := "0s"
deriving DecidableEq

/-- Fresh `ServerStatistics(server_name=name)` created by
`_update_server_stats` when the server has no entry yet. -/
def defaultStats (name : String) : ServerStatistics := { server_name := name }

/-- Per-entry update of `MCPGateway._update_server_stats` (gateway.py lines
616-639): bump counters, stamp the request time, and fold the latency into
the rolling average (`total == 1` short-circuit as in the source). -/
def updateServerStats (s : ServerStatistics) (executionTime : ℚ)
    (success : Bool) (now : ℕ) : ServerStatistics :=
  let total := s.total_requests + 1
  { s with
    total_requests := total
    last_request := some now
    successful_requests := s.successful_requests + (if success then 1 else 0)
    failed_requests := s.failed_requests + (if success then 0 else 1)
    average_response_time :=
      if total = 1 then executionTime
      else (s.average_response_time * ((total : ℚ) - 1) + executionTime) / (total : ℚ) }

/-- `MCPGateway._update_server_stats` at the `self._server_stats` dict level:
insert a default entry when the name is missing, then update it. -/
def updateStatsMap (m : AList ServerStatistics) (name : String)
    (executionTime : ℚ) (success : Bool) (now : ℕ) : AList ServerStatistics :=
  let s := (alookup m name).getD (defaultStats name)
  ainsert m name (updateServerStats s executionTime success now)

/-- `GatewayMetrics` from `models/gateway.py` (fields used by
`get_metrics`). -/
structure GatewayMetrics where
  total_requests : ℕ := 0
  successful_requests : ℕ := 0
  failed_requests : ℕ := 0
  average_response_time : ℚ := 0
  active_connections : ℕ := 0
  server_statistics : List ServerStatistics := []
deriving DecidableEq

/-- `MCPGateway.get_metrics` (gateway.py lines 692-713) over the values of
`self._server_stats`: totals are sums, and the gateway-wide average weighs
each per-server average by its request count. -/
def getMetrics (stats : List ServerStatistics) (activeConnections : ℕ) :
    GatewayMetrics :=
  let totalRequests := (stats.map (·.total_requests)).sum
  { total_requests := totalRequests
    successful_requests := (stats.map (·.successful_requests)).sum
    failed_requests := (stats.map (·.failed_requests)).sum
    average_response_time :=
      if totalRequests > 0 then
        (stats.map (fun s => s.average_response_time * (s.total_requests : ℚ))).sum
          / (totalRequests : ℚ)
      else 0
    active_connections := activeConnections
    server_statistics := stats }

/-! ## Tool execution (`MCPGateway.execute_tool`) -/

/-- `ToolExecutionRequest` from `models/gateway.py`. -/
structure ToolExecutionRequest where
  tool_name : String
  parameters : JsonDict := []
  timeout : Option ℕ := some 30
deriving DecidableEq

/-- `ToolExecutionResponse` from `models/gateway.py`. -/
structure ToolExecutionResponse where
  tool_name : String
  server_name : String
  success : Bool
  result : Option JsonDict := none
  error : Option String := none
  execution_time : ℚ
  timestamp : ℕ := 0
deriving DecidableEq

/-- Error text of the tool-not-found response (gateway.py line 391). -/
def toolNotFoundMsg (n : String) : String :=
  "Tool " ++ squote ++ n ++ squote ++ " not found"

/-- Error text of the server-unavailable response (gateway.py line 402). -/
def serverUnavailableMsg (n : String) : String :=
  "Server " ++ squote ++ n ++ squote ++ " is not available"

/-- Error text when no HTTP client exists for the server (gateway.py line
435). -/
def noClientMsg (n : String) : String :=
  "No client connection for server " ++ squote ++ n ++ squote

/-- Error text for a non-200 upstream HTTP reply (gateway.py line 484). -/
def httpErrMsg (status : ℕ) (text : String) : String :=
  "HTTP " ++ toString status ++ ": " ++ text

/-- `server.url.startswith(...)` check for process-backed servers
(gateway.py line 408). -/
def isProcessUrl (u : String) : Bool := "process://".isPrefixOf u

/-- One dispatched upstream call: owning server, original tool name, and the
forwarded arguments. -/
structure DispatchRecord where
  server : String
  tool : String
  args : JsonDict
deriving DecidableEq

/-- Environment outcome of the HTTP dispatch leg of `execute_tool`: the
discovery client may be missing, the POST may raise, or it returns a status
code, body text, and the parsed `MCPResponse` error/result fields. -/
inductive HttpOutcome
  | noClient
  | raised (msg : String)
  | response (status : ℕ) (text : String) (error : Option String)
      (result : Option JsonDict)
deriving DecidableEq

/-- Environment outcomes consulted by `execute_tool` past its guard checks:
the `process_manager.call_tool` result for process-backed servers (raising
modelled as `.error`), and the HTTP leg outcome for URL-backed servers. -/
structure ExecOutcome where
  procCall : Except String JsonDict
  http : HttpOutcome

/-- Result of one `execute_tool` call: the returned response, the
`self._server_stats` dict afterwards, and the upstream calls dispatched. -/
structure ExecResult where
  response : ToolExecutionResponse
  stats : AList ServerStatistics
  dispatched : List DispatchRecord
deriving DecidableEq

/-- `MCPGateway.execute_tool` (gateway.py lines 372-498).  The tool is
resolved through the aggregator; an unresolvable name or a non-Connected
owner returns an error response without touching statistics or dispatching.
Otherwise the call goes to the process manager (for `process://` URLs) or
over HTTP, with outcomes supplied by `outcome`; every branch returns a
response (the Python `try` converts exceptions into failure responses). -/
def executeTool (tools : AList AggregatedTool) (servers : AList MCPServer)
    (stats : AList ServerStatistics) (req : ToolExecutionRequest)
    (outcome : ExecOutcome) (elapsed : ℚ) (now : ℕ) : ExecResult :=
  match findToolByName tools req.tool_name with
  | none =>
      { response :=
          { tool_name := req.tool_name, server_name := "unknown"
            success := false, error := some (toolNotFoundMsg req.tool_name)
            execution_time := elapsed, timestamp := now }
        stats := stats, dispatched := [] }
  | some tool =>
    let unavailable : ExecResult :=
      { response :=
          { tool_name := req.tool_name, server_name := tool.server_name
            success := false, error := some (serverUnavailableMsg tool.server_name)
            execution_time := elapsed, timestamp := now }
        stats := stats, dispatched := [] }
    match alookup servers tool.server_name with
    | none => unavailable
    | some server =>
      if server.status ≠ .connected then unavailable
      else
        let rec0 : DispatchRecord :=
          ⟨tool.server_name, tool.original_name, req.parameters⟩
        if isProcessUrl server.url then
          match outcome.procCall with
          | .ok result =>
              { response :=
                  { tool_name := req.tool_name, server_name := tool.server_name
                    success := true, result := some result
                    execution_time := elapsed, timestamp := now }
                stats := updateStatsMap stats tool.server_name elapsed true now
                dispatched := [rec0] }
          | .error msg =>
              { response :=
                  { tool_name := req.tool_name, server_name := tool.server_name
                    success := false, error := some msg
                    execution_time := elapsed, timestamp := now }
                stats := updateStatsMap stats tool.server_name elapsed false now
                dispatched := [rec0] }
        else
          match outcome.http with
          | .noClient =>
              { response :=
                  { tool_name := req.tool_name, server_name := tool.server_name
                    success := false, error := some (noClientMsg tool.server_name)
                    execution_time := elapsed, timestamp := now }
                stats := stats, dispatched := [] }
          | .raised msg =>
              { response :=
                  { tool_name := req.tool_name, server_name := tool.server_name
                    success := false, error := some msg
                    execution_time := elapsed, timestamp := now }
                stats := updateStatsMap stats tool.server_name elapsed false now
                dispatched := [rec0] }
          | .response status text err result =>
              let stats1 := updateStatsMap stats tool.server_name elapsed true now
              if status = 200 then
                match err with
                | some e =>
                    { response :=
                        { tool_name := req.tool_name
                          server_name := tool.server_name
                          success := false, error := some e
                          execution_time := elapsed, timestamp := now }
                      stats := stats1, dispatched := [rec0] }
                | none =>
                    { response :=
                        { tool_name := req.tool_name
                          server_name := tool.server_name
                          success := true, result := result
                          execution_time := elapsed, timestamp := now }
                      stats := stats1, dispatched := [rec0] }
              else
                { response :=
                    { tool_name := req.tool_name, server_name := tool.server_name
                      success := false, error := some (httpErrMsg status text)
                      execution_time := elapsed, timestamp := now }
                  stats := stats1, dispatched := [rec0] }

/-! ## Health checks (`MCPGateway._perform_health_checks`) -/

/-- Per-server body of `MCPGateway._perform_health_checks` (gateway.py lines
284-316).  Returns the updated server, whether a status-change event was
emitted, and whether a reconnect task was scheduled (the source schedules
one only inside the status-changed block, and only when the new status is
Failed). -/
def healthCheckStep (server : MCPServer) (isHealthy : Bool) (now : ℕ) :
    MCPServer × Bool × Bool :=
  let previous := server.status
  let updated :=
    if isHealthy then
      { server with status := .connected, last_ping := some now, retry_count := 0 }
    else
      let retry := server.retry_count + 1
      if retry ≥ server.max_retries then
        { server with status := .failed, retry_count := retry }
      else
        { server with status := .reconnecting, retry_count := retry }
  let eventEmitted := previous ≠ updated.status
  let reconnectScheduled := eventEmitted ∧ updated.status = .failed
  (updated, eventEmitted, reconnectScheduled)

/-! ## Unified transport timeouts (`core/unified_transport.py`) -/

/-- `MCPFramework` enum from `unified_transport.py`. -/
inductive MCPFramework
  | mcp
  | fastmcp
  | unknown
deriving DecidableEq

/-- Contiguous-substring test on character lists (Python `pat in s`). -/
def isSubstrChars (pat : List Char) : List Char → Bool
  | [] => decide (pat = [])
  | c :: tl => pat.isPrefixOf (c :: tl) || isSubstrChars pat tl

/-- Python `pat in s` on strings. -/
def strContains (s pat : String) : Bool := isSubstrChars pat.data s.data

/-- Python `str.lower()` (ASCII tool names). -/
def toLowerStr (s : String) : String := ⟨s.data.map Char.toLower⟩

/-- The `network_tools` keyword set of `_get_tool_timeout`
(unified_transport.py lines 478-481). -/
def networkToolKeywords : List String :=
  ["brave_web_search", "web_search", "search", "fetch", "crawl",
   "scrape", "api_call", "http_request", "download"]

/-- The `ai_tools` keyword set of `_get_tool_timeout` (lines 484-486). -/
def aiToolKeywords : List String :=
  ["generate", "completion", "embedding", "analyze", "summarize"]

/-- `UnifiedTransportBase._get_tool_timeout` (unified_transport.py lines
475-498), in seconds. -/
def getToolTimeout (framework : MCPFramework) (toolName : String) : ℚ :=
  if networkToolKeywords.any (fun k => strContains (toLowerStr toolName) k)
    then 120
  else if aiToolKeywords.any (fun k => strContains (toLowerStr toolName) k)
    then 90
  else if framework = .fastmcp then 75
  else 60

/-- Timeout passed to `send_request` by
`UnifiedStdioTransport.initialize_with_detection` (unified_transport.py line
693), in seconds. -/
def stdioInitializeTimeout : ℚ := 30

/-- Timeout passed to `send_request` by
`UnifiedSSETransport.initialize_with_detection` (unified_transport.py line
1090), in seconds. -/
def sseInitializeTimeout : ℚ := 30

/-! ## SSE stream reconnect loop (`UnifiedSSETransport._handle_sse_stream`) -/

/-- Observable fate of one SSE connection attempt: the GET fails (non-200 or
exception before the 200 response), the stream errors after a successful
connection (which already reset `retry_count` to 0), or the stream ends
normally. -/
inductive SseAttemptFate
  | connectFail
  | streamError
  | streamEnd
deriving DecidableEq

/-- `UnifiedSSETransport._handle_sse_stream` (unified_transport.py lines
927-970) driven by a script of attempt fates.  Returns the backoff waits
performed (in seconds, `min(2 ** retry_count, 30)`) and whether the loop
gave up (`max_retries` reached).  A successful connection resets
`retry_count` to 0 before the stream body runs, so a later stream error
resumes counting from 1.  An exhausted script means the stream is still
live. -/
def sseStreamRun (maxRetries : ℕ) (retryCount : ℕ) :
    List SseAttemptFate → List ℕ × Bool
  | [] => if retryCount < maxRetries then ([], false) else ([], true)
  | fate :: rest =>
    if retryCount < maxRetries then
      match fate with
      | .streamEnd => sseStreamRun maxRetries 0 rest
      | .connectFail =>
          let retry := retryCount + 1
          if retry < maxRetries then
            let wait := min (2 ^ retry) 30
            let (waits, gaveUp) := sseStreamRun maxRetries retry rest
            (wait :: waits, gaveUp)
          else ([], true)
      | .streamError =>
          let retry := 0 + 1
          if retry < maxRetries then
            let wait := min (2 ^ retry) 30
            let (waits, gaveUp) := sseStreamRun maxRetries retry rest
            (wait :: waits, gaveUp)
          else ([], true)
    else ([], true)

/-! ## Client-facing MCP endpoint (`api/routes.py`) -/

/-- Session record created for an `initialize` POST (routes.py lines
787-792). -/
structure MCPSessionData where
  created_at : ℕ
  client_info : JsonDict
  protocol_version : String
  initialized : Bool
deriving DecidableEq

/-- One entry of the module-level `_sse_connections` dict: connection id,
optional linked session id, and the outbound message queue (messages
abstracted as strings). -/
structure SseConn where
  id : String
  session : Option String
  queue : List String
deriving DecidableEq

/-- Reply of the POST handler: HTTP 202 with no body plus the
`Mcp-Session-Id` header, or a 200 JSON body plus the header. -/
inductive PostReply
  | accepted (headerSession : String)
  | jsonBody (body : String) (headerSession : String)
deriving DecidableEq

/-- The linking loop of the `initialize` branch (routes.py lines 797-809):
walk `_sse_connections` in insertion order, link the first connection whose
session is `None` to the new session, and enqueue the initialize response on
its queue.  `none` when every connection is already linked. -/
def linkAndDispatch (sid : String) (resp : String) :
    List SseConn → Option (List SseConn)
  | [] => none
  | c :: cs =>
    if c.session = none then
      some ({ c with session := some sid, queue := c.queue ++ [resp] } :: cs)
    else
      match linkAndDispatch sid resp cs with
      | some cs2 => some (c :: cs2)
      | none => none

/-- The `initialize`-with-no-session-header branch of `mcp_endpoint`
(routes.py lines 783-822): create the session (initialized `false`), link an
unlinked SSE connection and answer 202 with the session header, or fall back
to returning the JSON-RPC result as the POST body with the header set. -/
def handleInitializeNoSession (sessions : AList MCPSessionData)
    (conns : List SseConn) (newSid : String) (now : ℕ) (clientInfo : JsonDict)
    (protocolVersion : String) (resp : String) :
    AList MCPSessionData × List SseConn × PostReply :=
  let sessions2 := ainsert sessions newSid
    { created_at := now, client_info := clientInfo
      protocol_version := protocolVersion, initialized := false }
  match linkAndDispatch newSid resp conns with
  | some conns2 => (sessions2, conns2, .accepted newSid)
  | none => (sessions2, conns, .jsonBody resp newSid)

/-- The network keyword set with the redundant entries removed:
`brave_web_search` and `web_search` both contain `search`, so substring
matching against `networkToolKeywords` is equivalent to matching against this
list (proved below). -/
def effectiveNetworkKeywords : List String :=
  ["search", "fetch", "crawl", "scrape", "api_call", "http_request", "download"]

/-! ## Concrete fixtures used by witnesses and counterexamples -/

/-- A Connected server exposing two tools and one resource. -/
def srvAlpha : MCPServer :=
  { name := "alpha"
    url := "http://a"
    status := .connected
    tools := [⟨"read_file", "da", []⟩, ⟨"say", "db", []⟩]
    resources := [⟨"file:///x.txt", "x", none, none⟩] }

/-- A Connected server whose name is the empty string. -/
def srvEmptyName : MCPServer :=
  { name := ""
    url := "http://e"
    status := .connected
    tools := [⟨"t", "d", []⟩] }

/-- A Disconnected server named `alpha`. -/
def srvAlphaDown : MCPServer :=
  { name := "alpha"
    url := "http://a"
    status := .disconnected }

/-- A Connected server used for the `none`-strategy aggregation check. -/
def srvNone : MCPServer :=
  { name := "nsrv"
    url := "http://n"
    status := .connected
    tools := [⟨"t", "d", []⟩] }

/-- An aggregated tool owned by `alpha`, as stored under key `alpha.echo`. -/
def toolEcho : AggregatedTool :=
  { original_name := "echo", prefixed_name := "alpha.echo"
    server_name := "alpha", description := "d" }

/-- The aggregated form of `srvAlpha`'s tool `say`. -/
def toolSay : AggregatedTool :=
  { original_name := "say", prefixed_name := "alpha.say"
    server_name := "alpha", description := "db" }

/-- An aggregated resource stored under a prefixed key that itself contains
an underscore. -/
def resUnderscore : AggregatedResource :=
  { original_uri := "b_c", prefixed_uri := "a.b_c"
    server_name := "a", name := "res" }

/-- Resource dict holding only `resUnderscore` under its prefixed key. -/
def resMapUnderscore : AList AggregatedResource := [("a.b_c", resUnderscore)]

/-- An aggregated resource stored under a fully dotted prefixed key. -/
def resDotted : AggregatedResource :=
  { original_uri := "b.c", prefixed_uri := "a.b.c"
    server_name := "a", name := "res2" }

/-- Resource dict holding only `resDotted`. -/
def resMapDotted : AList AggregatedResource := [("a.b.c", resDotted)]

end MCPPortal

namespace MCPPortal

/-! ## Association-list lemmas -/

theorem mem_ainsert {α : Type} {m : AList α} {k : String} {v : α}
    {p : String × α} (h : p ∈ ainsert m k v) : p ∈ m ∨ p = (k, v) := by
  unfold ainsert at h
  by_cases hc : m.any (fun p => p.1 = k)
  · rw [if_pos hc] at h
    obtain ⟨q, hq, hfq⟩ := List.mem_map.mp h
    by_cases hk : q.1 = k
    · right
      rw [if_pos hk] at hfq
      exact hfq.symm
    · left
      rw [if_neg hk] at hfq
      exact hfq ▸ hq
  · rw [if_neg hc] at h
    rcases List.mem_append.mp h with h1 | h2
    · exact Or.inl h1
    · exact Or.inr (List.mem_singleton.mp h2)

theorem keysNodup_ainsert {α : Type} {m : AList α} (h : keysNodup m)
    (k : String) (v : α) : keysNodup (ainsert m k v) := by
  unfold ainsert keysNodup
  by_cases hc : m.any (fun p => p.1 = k)
  · rw [if_pos hc, List.map_map]
    have heq : ∀ p ∈ m,
        (Prod.fst ∘ fun p : String × α => if p.1 = k then (k, v) else p) p = p.1 := by
      intro p _
      by_cases hk : p.1 = k
      · simp [hk]
      · simp [hk]
    rw [List.map_congr_left heq]
    exact h
  · rw [if_neg hc, List.map_append]
    rw [List.nodup_append]
    refine ⟨h, List.nodup_singleton _, ?_⟩
    intro x hx hx2
    simp only [List.map_cons, List.map_nil, List.mem_singleton] at hx2
    subst hx2
    obtain ⟨q, hq, hqk⟩ := List.mem_map.mp hx
    exact hc (List.any_eq_true.mpr ⟨q, hq, by simp [hqk]⟩)

theorem alookup_of_mem {α : Type} {m : AList α} (hnd : keysNodup m)
    {k : String} {v : α} (h : (k, v) ∈ m) : alookup m k = some v := by
  induction m with
  | nil => cases h
  | cons p tl ih =>
    rcases List.mem_cons.mp h with h1 | h2
    · subst h1
      unfold alookup
      rw [List.find?_cons_of_pos _ (by simp)]
      rfl
    · have hk : p.1 ≠ k := by
        intro hpk
        have hkeys : k ∈ tl.map Prod.fst :=
          List.mem_map.mpr ⟨(k, v), h2, rfl⟩
        have := (List.nodup_cons.mp hnd).1
        rw [hpk] at this
        exact this hkeys
      unfold alookup
      rw [List.find?_cons_of_neg _ (by simp [hk])]
      exact ih (List.nodup_cons.mp hnd).2 h2

theorem mem_of_alookup {α : Type} {m : AList α} {k : String} {v : α}
    (h : alookup m k = some v) : (k, v) ∈ m := by
  unfold alookup at h
  obtain ⟨p, hp, hpv⟩ := Option.map_eq_some'.mp h
  have hmem := List.mem_of_find?_eq_some hp
  have hpred := List.find?_some hp
  have hk : p.1 = k := by simpa using hpred
  have : p = (k, v) := by
    cases p
    simp only at hk hpv
    simp [hk, hpv]
  exact this ▸ hmem

theorem foldl_preserves {α β : Type} {P : β → Prop} (f : β → α → β)
    (l : List α) (hf : ∀ b a, a ∈ l → P b → P (f b a)) :
    ∀ b, P b → P (l.foldl f b) := by
  induction l with
  | nil => intro b hb; exact hb
  | cons x xs ih =>
    intro b hb
    simp only [List.foldl_cons]
    exact ih (fun b a ha hb => hf b a (List.mem_cons_of_mem x ha) hb)
      (f b x) (hf b x (List.mem_cons_self x xs) hb)

/-! ## Aggregation invariants -/

theorem mem_foldl_insertTool (strategy : String) (conflict : String → Bool)
    (sname : String) (tools : List MCPTool) (m : AList AggregatedTool)
    {p : String × AggregatedTool}
    (hp : p ∈ tools.foldl (insertTool strategy conflict sname) m) :
    p ∈ m ∨ ∃ t ∈ tools,
      p = ((toolEntry strategy conflict sname t).prefixed_name,
           toolEntry strategy conflict sname t) := by
  induction tools generalizing m with
  | nil => exact Or.inl hp
  | cons t ts ih =>
    simp only [List.foldl_cons] at hp
    rcases ih _ hp with h1 | ⟨t2, ht2, he⟩
    · unfold insertTool at h1
      rcases mem_ainsert h1 with hm | he
      · exact Or.inl hm
      · exact Or.inr ⟨t, List.mem_cons_self t ts, he⟩
    · exact Or.inr ⟨t2, List.mem_cons_of_mem t ht2, he⟩

theorem mem_foldl_serverTools (strategy : String) (conflict : String → Bool)
    (servers : List MCPServer) (m : AList AggregatedTool)
    {p : String × AggregatedTool}
    (hp : p ∈ servers.foldl (serverToolsStep strategy conflict) m) :
    p ∈ m ∨ ∃ s ∈ servers, s.status = .connected ∧ ∃ t ∈ s.tools,
      p = ((toolEntry strategy conflict s.name t).prefixed_name,
           toolEntry strategy conflict s.name t) := by
  induction servers generalizing m with
  | nil => exact Or.inl hp
  | cons s ss ih =>
    simp only [List.foldl_cons] at hp
    rcases ih _ hp with h1 | ⟨s2, hs2, hst2, t, ht, he⟩
    · unfold serverToolsStep at h1
      by_cases hst : s.status = .connected
      · rw [if_pos hst] at h1
        rcases mem_foldl_insertTool strategy conflict s.name s.tools m h1 with
          hm | ⟨t, ht, he⟩
        · exact Or.inl hm
        · exact Or.inr ⟨s, List.mem_cons_self s ss, hst, t, ht, he⟩
      · rw [if_neg hst] at h1
        exact Or.inl h1
    · exact Or.inr ⟨s2, List.mem_cons_of_mem s hs2, hst2, t, ht, he⟩

theorem aggregateToolsMap_mem (strategy : String) (servers : List MCPServer)
    {p : String × AggregatedTool} (hp : p ∈ aggregateToolsMap strategy servers) :
    ∃ s ∈ servers, s.status = .connected ∧ ∃ t ∈ s.tools,
      p = ((toolEntry strategy (isToolConflict servers) s.name t).prefixed_name,
           toolEntry strategy (isToolConflict servers) s.name t) := by
  unfold aggregateToolsMap at hp
  rcases mem_foldl_serverTools strategy (isToolConflict servers) servers [] hp with
    h1 | h2
  · cases h1
  · exact h2

theorem keysNodup_foldl_insertTool (strategy : String) (conflict : String → Bool)
    (sname : String) (tools : List MCPTool) (m : AList AggregatedTool)
    (hm : keysNodup m) :
    keysNodup (tools.foldl (insertTool strategy conflict sname) m) := by
  induction tools generalizing m with
  | nil => exact hm
  | cons t ts ih =>
    simp only [List.foldl_cons]
    exact ih _ (keysNodup_ainsert hm _ _)

theorem keysNodup_foldl_serverTools (strategy : String) (conflict : String → Bool)
    (servers : List MCPServer) (m : AList AggregatedTool) (hm : keysNodup m) :
    keysNodup (servers.foldl (serverToolsStep strategy conflict) m) := by
  induction servers generalizing m with
  | nil => exact hm
  | cons s ss ih =>
    simp only [List.foldl_cons]
    refine ih _ ?_
    unfold serverToolsStep
    by_cases hst : s.status = .connected
    · rw [if_pos hst]
      exact keysNodup_foldl_insertTool strategy conflict s.name s.tools m hm
    · rw [if_neg hst]
      exact hm

theorem aggregateToolsMap_keysNodup (strategy : String)
    (servers : List MCPServer) : keysNodup (aggregateToolsMap strategy servers) :=
  keysNodup_foldl_serverTools strategy (isToolConflict servers) servers []
    (by simp [keysNodup])

theorem mem_foldl_insertResource (strategy : String) (conflict : String → Bool)
    (sname : String) (resources : List MCPResource) (m : AList AggregatedResource)
    {p : String × AggregatedResource}
    (hp : p ∈ resources.foldl (insertResource strategy conflict sname) m) :
    p ∈ m ∨ ∃ r ∈ resources,
      p = ((resourceEntry strategy conflict sname r).prefixed_uri,
           resourceEntry strategy conflict sname r) := by
  induction resources generalizing m with
  | nil => exact Or.inl hp
  | cons r rs ih =>
    simp only [List.foldl_cons] at hp
    rcases ih _ hp with h1 | ⟨r2, hr2, he⟩
    · unfold insertResource at h1
      rcases mem_ainsert h1 with hm | he
      · exact Or.inl hm
      · exact Or.inr ⟨r, List.mem_cons_self r rs, he⟩
    · exact Or.inr ⟨r2, List.mem_cons_of_mem r hr2, he⟩

theorem mem_foldl_serverResources (strategy : String) (conflict : String → Bool)
    (servers : List MCPServer) (m : AList AggregatedResource)
    {p : String × AggregatedResource}
    (hp : p ∈ servers.foldl (serverResourcesStep strategy conflict) m) :
    p ∈ m ∨ ∃ s ∈ servers, s.status = .connected ∧ ∃ r ∈ s.resources,
      p = ((resourceEntry strategy conflict s.name r).prefixed_uri,
           resourceEntry strategy conflict s.name r) := by
  induction servers generalizing m with
  | nil => exact Or.inl hp
  | cons s ss ih =>
    simp only [List.foldl_cons] at hp
    rcases ih _ hp with h1 | ⟨s2, hs2, hst2, r, hr, he⟩
    · unfold serverResourcesStep at h1
      by_cases hst : s.status = .connected
      · rw [if_pos hst] at h1
        rcases mem_foldl_insertResource strategy conflict s.name s.resources m h1
          with hm | ⟨r, hr, he⟩
        · exact Or.inl hm
        · exact Or.inr ⟨s, List.mem_cons_self s ss, hst, r, hr, he⟩
      · rw [if_neg hst] at h1
        exact Or.inl h1
    · exact Or.inr ⟨s2, List.mem_cons_of_mem s hs2, hst2, r, hr, he⟩

theorem aggregateResourcesMap_mem (strategy : String) (servers : List MCPServer)
    {p : String × AggregatedResource}
    (hp : p ∈ aggregateResourcesMap strategy servers) :
    ∃ s ∈ servers, s.status = .connected ∧ ∃ r ∈ s.resources,
      p = ((resourceEntry strategy (isResourceConflict servers) s.name r).prefixed_uri,
           resourceEntry strategy (isResourceConflict servers) s.name r) := by
  unfold aggregateResourcesMap at hp
  rcases mem_foldl_serverResources strategy (isResourceConflict servers) servers []
    hp with h1 | h2
  · cases h1
  · exact h2

theorem keysNodup_foldl_insertResource (strategy : String)
    (conflict : String → Bool) (sname : String) (resources : List MCPResource)
    (m : AList AggregatedResource) (hm : keysNodup m) :
    keysNodup (resources.foldl (insertResource strategy conflict sname) m) := by
  induction resources generalizing m with
  | nil => exact hm
  | cons r rs ih =>
    simp only [List.foldl_cons]
    exact ih _ (keysNodup_ainsert hm _ _)

theorem keysNodup_foldl_serverResources (strategy : String)
    (conflict : String → Bool) (servers : List MCPServer)
    (m : AList AggregatedResource) (hm : keysNodup m) :
    keysNodup (servers.foldl (serverResourcesStep strategy conflict) m) := by
  induction servers generalizing m with
  | nil => exact hm
  | cons s ss ih =>
    simp only [List.foldl_cons]
    refine ih _ ?_
    unfold serverResourcesStep
    by_cases hst : s.status = .connected
    · rw [if_pos hst]
      exact keysNodup_foldl_insertResource strategy conflict s.name s.resources m hm
    · rw [if_neg hst]
      exact hm

theorem aggregateResourcesMap_keysNodup (strategy : String)
    (servers : List MCPServer) :
    keysNodup (aggregateResourcesMap strategy servers) :=
  keysNodup_foldl_serverResources strategy (isResourceConflict servers) servers []
    (by simp [keysNodup])

theorem toolEntry_server_name (conflict : String → Bool) {sn : String}
    (h : sn ≠ "") (t : MCPTool) :
    toolEntry "server_name" conflict sn t =
      { original_name := t.name, prefixed_name := sn ++ "." ++ t.name
        server_name := sn, description := t.description
        parameters := t.inputSchema } := by
  unfold toolEntry generatePfx
  simp [h]

theorem resourceEntry_server_name (conflict : String → Bool) {sn : String}
    (h : sn ≠ "") (r : MCPResource) :
    resourceEntry "server_name" conflict sn r =
      { original_uri := r.uri, prefixed_uri := sn ++ "://" ++ r.uri
        server_name := sn, name := r.name, description := r.description
        mime_type := r.mimeType } := by
  unfold resourceEntry generatePfx
  simp [h]

/-! ## Lookup characterizations -/

theorem scan_original_name {m : AList AggregatedTool} {q : String}
    {t : AggregatedTool}
    (h : (m.find? (fun p => p.2.original_name = q)).map Prod.snd = some t) :
    (∃ k, (k, t) ∈ m) ∧ t.original_name = q := by
  obtain ⟨p, hp, hpv⟩ := Option.map_eq_some'.mp h
  have hmem := List.mem_of_find?_eq_some hp
  have hpred := List.find?_some hp
  refine ⟨⟨p.1, by rw [← hpv]; exact hmem⟩, ?_⟩
  rw [← hpv]
  simpa using hpred

theorem scan_original_uri {m : AList AggregatedResource} {q : String}
    {r : AggregatedResource}
    (h : (m.find? (fun p => p.2.original_uri = q)).map Prod.snd = some r) :
    (∃ k, (k, r) ∈ m) ∧ r.original_uri = q := by
  obtain ⟨p, hp, hpv⟩ := Option.map_eq_some'.mp h
  have hmem := List.mem_of_find?_eq_some hp
  have hpred := List.find?_some hp
  refine ⟨⟨p.1, by rw [← hpv]; exact hmem⟩, ?_⟩
  rw [← hpv]
  simpa using hpred

theorem findToolByName_eq_some {m : AList AggregatedTool} {s : String}
    {t : AggregatedTool} (h : findToolByName m s = some t) :
    alookup m s = some t ∨
    (alookup m s = none ∧ hasUnderscore s = true ∧
      alookup m (firstUnderscoreToDot s) = some t) ∨
    (alookup m s = none ∧ (∃ k, (k, t) ∈ m) ∧ t.original_name = s) := by
  unfold findToolByName at h
  cases hx : alookup m s with
  | some t0 =>
    rw [hx] at h
    exact Or.inl h
  | none =>
    rw [hx] at h
    cases hu : hasUnderscore s with
    | true =>
      rw [hu] at h
      cases hy : alookup m (firstUnderscoreToDot s) with
      | some t1 =>
        rw [hy] at h
        exact Or.inr (Or.inl ⟨rfl, rfl, h⟩)
      | none =>
        rw [hy] at h
        have h2 : (m.find? (fun p => p.2.original_name = s)).map Prod.snd =
            some t := h
        exact Or.inr (Or.inr ⟨rfl, scan_original_name h2⟩)
    | false =>
      rw [hu] at h
      have h2 : (m.find? (fun p => p.2.original_name = s)).map Prod.snd =
          some t := h
      exact Or.inr (Or.inr ⟨rfl, scan_original_name h2⟩)

theorem findResourceByUri_eq_some {m : AList AggregatedResource} {s : String}
    {r : AggregatedResource} (h : findResourceByUri m s = some r) :
    alookup m s = some r ∨
    (alookup m s = none ∧ alookup m (allUnderscoresToDots s) = some r) ∨
    r.original_uri = s ∨ r.original_uri = allUnderscoresToDots s := by
  unfold findResourceByUri at h
  cases hx : alookup m s with
  | some r0 =>
    rw [hx] at h
    exact Or.inl h
  | none =>
    rw [hx] at h
    cases hy : alookup m (allUnderscoresToDots s) with
    | some r1 =>
      rw [hy] at h
      exact Or.inr (Or.inl ⟨rfl, h⟩)
    | none =>
      rw [hy] at h
      cases hz : (m.find? (fun p => p.2.original_uri = s)).map Prod.snd with
      | some r2 =>
        rw [hz] at h
        have h2 : some r2 = some r := h
        have hz2 : (m.find? (fun p => p.2.original_uri = s)).map Prod.snd =
            some r := hz.trans h2
        exact Or.inr (Or.inr (Or.inl (scan_original_uri hz2).2))
      | none =>
        rw [hz] at h
        have h2 : (m.find? (fun p =>
            p.2.original_uri = allUnderscoresToDots s)).map Prod.snd =
            some r := h
        exact Or.inr (Or.inr (Or.inr (scan_original_uri h2).2))

/-! ## Claim theorems -/

/-- Claim C1, counterexample: re-aggregating (with the gateway's
`server_name` strategy) a Connected server whose name is the empty string
inserts a tool entry whose prefixed name equals the bare original name, not
`owner ++ "." ++ original` — so the claimed invariant fails as stated. -/
theorem aggregate_empty_name_cex :
    aggregateToolsMap "server_name" [srvEmptyName] =
      [("t", { original_name := "t", prefixed_name := "t", server_name := ""
               description := "d", parameters := [] })] ∧
    ("t" : String) ≠ "" ++ "." ++ "t" := by
  constructor
  · rfl
  · decide

/-- Claim C1 (amended: provided every server in the list has a nonempty
name): after re-aggregation with the `server_name` strategy, every tool
entry's key is its prefixed name `owner ++ "." ++ original`, its owner is a
Connected server of the list owning that original tool, and the keys are
duplicate-free; likewise for resources with `owner ++ "://" ++ original`. -/
theorem aggregation_invariants_server_name (servers : List MCPServer)
    (hnames : ∀ s ∈ servers, s.name ≠ "") :
    (∀ p ∈ aggregateToolsMap "server_name" servers,
       p.2.prefixed_name = p.2.server_name ++ "." ++ p.2.original_name ∧
       p.1 = p.2.prefixed_name ∧
       ∃ s ∈ servers, s.status = .connected ∧ s.name = p.2.server_name ∧
         ∃ t ∈ s.tools, t.name = p.2.original_name) ∧
    keysNodup (aggregateToolsMap "server_name" servers) ∧
    (∀ p ∈ aggregateResourcesMap "server_name" servers,
       p.2.prefixed_uri = p.2.server_name ++ "://" ++ p.2.original_uri ∧
       p.1 = p.2.prefixed_uri ∧
       ∃ s ∈ servers, s.status = .connected ∧ s.name = p.2.server_name ∧
         ∃ r ∈ s.resources, r.uri = p.2.original_uri) ∧
    keysNodup (aggregateResourcesMap "server_name" servers) := by
  refine ⟨?_, aggregateToolsMap_keysNodup _ _, ?_,
    aggregateResourcesMap_keysNodup _ _⟩
  · intro p hp
    obtain ⟨s, hs, hst, t, ht, he⟩ := aggregateToolsMap_mem _ _ hp
    rw [toolEntry_server_name _ (hnames s hs) t] at he
    subst he
    exact ⟨rfl, rfl, s, hs, hst, rfl, t, ht, rfl⟩
  · intro p hp
    obtain ⟨s, hs, hst, r, hr, he⟩ := aggregateResourcesMap_mem _ _ hp
    rw [resourceEntry_server_name _ (hnames s hs) r] at he
    subst he
    exact ⟨rfl, rfl, s, hs, hst, rfl, r, hr, rfl⟩

/-- Witness for C1's theorem at the concrete server `srvAlpha` (nonempty
name, two tools), with the hypothesis discharged by evaluation. -/
theorem aggregation_invariants_witness :
    (∀ s ∈ [srvAlpha], s.name ≠ "") ∧
    ∀ p ∈ aggregateToolsMap "server_name" [srvAlpha],
      p.2.prefixed_name = p.2.server_name ++ "." ++ p.2.original_name ∧
      p.1 = p.2.prefixed_name ∧
      ∃ s ∈ [srvAlpha], s.status = .connected ∧ s.name = p.2.server_name ∧
        ∃ t ∈ s.tools, t.name = p.2.original_name :=
  ⟨by decide, (aggregation_invariants_server_name [srvAlpha] (by decide)).1⟩

/-- Claim C3, counterexample: for the queried URI `a_b_c`, the claim says
the only rewritten candidate is `a.b_c` (first underscore only), so the
entry stored under `a.b_c` would be found; the code instead rewrites every
underscore (candidate `a.b.c`) and misses it, returning `none`. -/
theorem resource_lookup_rewrite_cex :
    findResourceByUri resMapUnderscore "a_b_c" = none ∧
    findResourceByUriClaimed resMapUnderscore "a_b_c" = some resUnderscore ∧
    firstUnderscoreToDot "a_b_c" = "a.b_c" ∧
    allUnderscoresToDots "a_b_c" = "a.b.c" := by
  refine ⟨by rfl, by rfl, by rfl, by rfl⟩

/-- Claim C3 (amended): `find_tool_by_name` tries, besides the exact key and
the original-name scan, exactly one rewritten candidate — the query with its
first underscore replaced by a dot; `find_resource_by_uri` instead uses the
query with every underscore replaced by a dot as its rewritten candidate
(also in its original-URI fallback). -/
theorem lookup_rewrite_characterization :
    (∀ (m : AList AggregatedTool) (s : String) (t : AggregatedTool),
      findToolByName m s = some t →
      alookup m s = some t ∨
      (alookup m s = none ∧ hasUnderscore s = true ∧
        alookup m (firstUnderscoreToDot s) = some t) ∨
      t.original_name = s) ∧
    (∀ (m : AList AggregatedResource) (s : String) (r : AggregatedResource),
      findResourceByUri m s = some r →
      alookup m s = some r ∨
      (alookup m s = none ∧ alookup m (allUnderscoresToDots s) = some r) ∨
      r.original_uri = s ∨ r.original_uri = allUnderscoresToDots s) := by
  constructor
  · intro m s t h
    rcases findToolByName_eq_some h with h1 | h2 | ⟨_, _, h3⟩
    · exact Or.inl h1
    · exact Or.inr (Or.inl h2)
    · exact Or.inr (Or.inr h3)
  · intro m s r h
    exact findResourceByUri_eq_some h

/-- Witness for C3's theorem: the concrete lookup of `a_b.c` in a dict keyed
`a.b.c` goes through the all-underscores rewrite. -/
theorem lookup_rewrite_witness :
    alookup resMapDotted "a_b.c" = some resDotted ∨
    (alookup resMapDotted "a_b.c" = none ∧
      alookup resMapDotted (allUnderscoresToDots "a_b.c") = some resDotted) ∨
    resDotted.original_uri = "a_b.c" ∨
    resDotted.original_uri = allUnderscoresToDots "a_b.c" :=
  lookup_rewrite_characterization.2 resMapDotted "a_b.c" resDotted (by rfl)

/-- Claim C4: tool lookup is idempotent over any aggregated map — if
`find_tool_by_name` resolves a queried name to an entry, looking up that
entry's prefixed name returns the very same entry. -/
theorem find_tool_idempotent (strategy : String) (servers : List MCPServer)
    (n : String) (t : AggregatedTool)
    (h : findToolByName (aggregateToolsMap strategy servers) n = some t) :
    findToolByName (aggregateToolsMap strategy servers) t.prefixed_name =
      some t := by
  have hkt : ∃ k, (k, t) ∈ aggregateToolsMap strategy servers := by
    rcases findToolByName_eq_some h with h1 | ⟨_, _, h2⟩ | ⟨_, hk, _⟩
    · exact ⟨n, mem_of_alookup h1⟩
    · exact ⟨firstUnderscoreToDot n, mem_of_alookup h2⟩
    · exact hk
  obtain ⟨k, hkt⟩ := hkt
  have hco : t.prefixed_name = k := by
    obtain ⟨s, _, _, t2, _, he⟩ := aggregateToolsMap_mem strategy servers hkt
    have h1 : k = (toolEntry strategy (isToolConflict servers) s.name
        t2).prefixed_name := congrArg Prod.fst he
    have h2 : t = toolEntry strategy (isToolConflict servers) s.name t2 :=
      congrArg Prod.snd he
    rw [h2, h1]
  have hlook : alookup (aggregateToolsMap strategy servers) t.prefixed_name =
      some t := by
    rw [hco]
    exact alookup_of_mem (aggregateToolsMap_keysNodup _ _) hkt
  unfold findToolByName
  rw [hlook]

/-- Witness for C4's theorem: resolving `alpha_say` (underscore form) finds
the `alpha.say` entry, and looking up its prefixed name returns it again. -/
theorem find_tool_idempotent_witness :
    findToolByName (aggregateToolsMap "server_name" [srvAlpha]) "alpha_say" =
      some toolSay ∧
    findToolByName (aggregateToolsMap "server_name" [srvAlpha]) "alpha.say" =
      some toolSay :=
  ⟨by rfl,
   find_tool_idempotent "server_name" [srvAlpha] "alpha_say" toolSay (by rfl)⟩

/-- Claim C2: `execute_tool` returns an error response (it never raises) on
its two guard paths — unresolvable tool name, and owner server missing or
not Connected — and on those paths the statistics dict is unchanged and no
upstream call is dispatched. -/
theorem execute_tool_early_errors (tools : AList AggregatedTool)
    (servers : AList MCPServer) (stats : AList ServerStatistics)
    (req : ToolExecutionRequest) (outcome : ExecOutcome) (elapsed : ℚ)
    (now : ℕ) :
    (findToolByName tools req.tool_name = none →
      executeTool tools servers stats req outcome elapsed now =
        { response :=
            { tool_name := req.tool_name, server_name := "unknown"
              success := false, error := some (toolNotFoundMsg req.tool_name)
              execution_time := elapsed, timestamp := now }
          stats := stats, dispatched := [] }) ∧
    (∀ t, findToolByName tools req.tool_name = some t →
      (alookup servers t.server_name = none ∨
        ∃ srv, alookup servers t.server_name = some srv ∧
          srv.status ≠ .connected) →
      executeTool tools servers stats req outcome elapsed now =
        { response :=
            { tool_name := req.tool_name, server_name := t.server_name
              success := false
              error := some (serverUnavailableMsg t.server_name)
              execution_time := elapsed, timestamp := now }
          stats := stats, dispatched := [] }) := by
  constructor
  · intro h
    unfold executeTool
    rw [h]
  · intro t ht hsrv
    rcases hsrv with h1 | ⟨srv, h2, hst⟩
    · simp only [executeTool, ht, h1]
    · simp only [executeTool, ht, h2]
      rw [if_pos hst]

/-- Witness for C2's theorem: an empty aggregation yields the tool-not-found
response, and a tool owned by a Disconnected `alpha` yields the
server-unavailable response, each leaving statistics empty and dispatching
nothing. -/
theorem execute_tool_early_errors_witness :
    executeTool [] [] [] { tool_name := "nope" } ⟨.ok [], .noClient⟩ 1 0 =
      { response :=
          { tool_name := "nope", server_name := "unknown", success := false
            error := some (toolNotFoundMsg "nope"), execution_time := 1
            timestamp := 0 }
        stats := [], dispatched := [] } ∧
    executeTool [("alpha.echo", toolEcho)] [("alpha", srvAlphaDown)] []
        { tool_name := "alpha.echo" } ⟨.ok [], .noClient⟩ 1 0 =
      { response :=
          { tool_name := "alpha.echo", server_name := "alpha", success := false
            error := some (serverUnavailableMsg "alpha"), execution_time := 1
            timestamp := 0 }
        stats := [], dispatched := [] } :=
  ⟨(execute_tool_early_errors [] [] [] { tool_name := "nope" }
      ⟨.ok [], .noClient⟩ 1 0).1 (by rfl),
   (execute_tool_early_errors [("alpha.echo", toolEcho)]
      [("alpha", srvAlphaDown)] [] { tool_name := "alpha.echo" }
      ⟨.ok [], .noClient⟩ 1 0).2 toolEcho (by rfl)
      (Or.inr ⟨srvAlphaDown, by rfl, by decide⟩)⟩

/-- Claim C5 (code bug evidence): on a POST `initialize` with no session
header and two still-unlinked SSE connections `c1` (opened first) and `c2`,
the endpoint links `c1` — the earliest in the insertion-ordered connections
dict — enqueues the initialize response there, and replies 202 with the
session header; with no unlinked connection it falls back to the JSON body.
The claim (and the source's own comment) say the most recently opened
unlinked connection, i.e. `c2`, would be linked. -/
theorem initialize_links_earliest_unlinked :
    handleInitializeNoSession [] [⟨"c1", none, []⟩, ⟨"c2", none, []⟩]
        "sid-1" 5 [] "2024-11-05" "init-result" =
      ([("sid-1", ⟨5, [], "2024-11-05", false⟩)],
       [⟨"c1", some "sid-1", ["init-result"]⟩, ⟨"c2", none, []⟩],
       .accepted "sid-1") ∧
    handleInitializeNoSession [] [⟨"c3", some "other", []⟩]
        "sid-2" 6 [] "2024-11-05" "init-result" =
      ([("sid-2", ⟨6, [], "2024-11-05", false⟩)],
       [⟨"c3", some "other", []⟩],
       .jsonBody "init-result" "sid-2") := by
  refine ⟨by rfl, by rfl⟩

theorem isSubstrChars_eq_true_iff (pat : List Char) (s : List Char) :
    isSubstrChars pat s = true ↔ pat <:+: s := by
  induction s with
  | nil =>
    simp only [isSubstrChars, decide_eq_true_eq, List.infix_nil]
  | cons c tl ih =>
    simp only [isSubstrChars, Bool.or_eq_true]
    rw [List.infix_cons_iff]
    constructor
    · rintro (h | h)
      · exact Or.inl (List.isPrefixOf_iff_prefix.mp h)
      · exact Or.inr (ih.mp h)
    · rintro (h | h)
      · exact Or.inl (List.isPrefixOf_iff_prefix.mpr h)
      · exact Or.inr (ih.mpr h)

theorem strContains_trans {s q p : String} (hq : strContains q p = true)
    (hs : strContains s q = true) : strContains s p = true := by
  unfold strContains at hq hs ⊢
  rw [isSubstrChars_eq_true_iff] at hq hs ⊢
  exact hq.trans hs

theorem networkKeywords_any_eq (s : String) :
    (networkToolKeywords.any fun k => strContains s k) =
    (effectiveNetworkKeywords.any fun k => strContains s k) := by
  simp only [networkToolKeywords, effectiveNetworkKeywords, List.any_cons,
    List.any_nil]
  cases hsearch : strContains s "search" with
  | true => simp [hsearch]
  | false =>
    have h1 : strContains s "brave_web_search" = false := by
      cases hb : strContains s "brave_web_search"
      · rfl
      · rw [strContains_trans (p := "search") (by decide) hb] at hsearch
        cases hsearch
    have h2 : strContains s "web_search" = false := by
      cases hb : strContains s "web_search"
      · rfl
      · rw [strContains_trans (p := "search") (by decide) hb] at hsearch
        cases hsearch
    simp [hsearch, h1, h2]

/-- Claim C6, counterexample: tool names containing `query`, `find`, or a
bare `web` do not get the 120 s network-tool timeout — the source's keyword
set only matches `search`, `fetch`, `crawl`, `scrape`, `api_call`,
`http_request`, and `download` as substrings — so `db_query` gets 60 s where
the claim requires 120 s. -/
theorem tool_timeout_query_cex :
    getToolTimeout .mcp "db_query" = 60 ∧
    getToolTimeout .mcp "find_files" = 60 ∧
    getToolTimeout .mcp "open_web_page" = 60 ∧
    (60 : ℚ) ≠ 120 := by
  refine ⟨by decide, by decide, by decide, by norm_num⟩

/-- Claim C6 (amended: the 120 s tier triggers exactly on the substrings
`search`, `fetch`, `crawl`, `scrape`, `download`, `api_call`,
`http_request` of the lowercased name — `query`, `find` and bare `web` are
not in the set): 120 s for network tools; else 90 s for AI-keyword tools;
else 75 s on the Fast framework and 60 s otherwise; both initialize
handshakes use a fixed 30 s. -/
theorem tool_timeout_selection :
    (∀ (fw : MCPFramework) (name : String),
      (effectiveNetworkKeywords.any fun k => strContains (toLowerStr name) k)
        = true →
      getToolTimeout fw name = 120) ∧
    (∀ (fw : MCPFramework) (name : String),
      (effectiveNetworkKeywords.any fun k => strContains (toLowerStr name) k)
        = false →
      (aiToolKeywords.any fun k => strContains (toLowerStr name) k) = true →
      getToolTimeout fw name = 90) ∧
    (∀ name : String,
      (effectiveNetworkKeywords.any fun k => strContains (toLowerStr name) k)
        = false →
      (aiToolKeywords.any fun k => strContains (toLowerStr name) k) = false →
      getToolTimeout .fastmcp name = 75 ∧
      ∀ fw, fw ≠ .fastmcp → getToolTimeout fw name = 60) ∧
    stdioInitializeTimeout = 30 ∧ sseInitializeTimeout = 30 := by
  refine ⟨?_, ?_, ?_, rfl, rfl⟩
  · intro fw name h
    unfold getToolTimeout
    rw [networkKeywords_any_eq (toLowerStr name), h]
    simp
  · intro fw name hnet hai
    unfold getToolTimeout
    rw [networkKeywords_any_eq (toLowerStr name), hnet, hai]
    simp
  · intro name hnet hai
    constructor
    · unfold getToolTimeout
      rw [networkKeywords_any_eq (toLowerStr name), hnet, hai]
      simp
    · intro fw hfw
      unfold getToolTimeout
      rw [networkKeywords_any_eq (toLowerStr name), hnet, hai]
      simp [hfw]

/-- Witness for C6's theorem at concrete tool names exercising all four
tiers. -/
theorem tool_timeout_selection_witness :
    getToolTimeout .mcp "brave_web_search" = 120 ∧
    getToolTimeout .mcp "gen_embedding" = 90 ∧
    getToolTimeout .fastmcp "foo" = 75 ∧
    getToolTimeout .unknown "foo" = 60 :=
  ⟨tool_timeout_selection.1 .mcp "brave_web_search" (by decide),
   tool_timeout_selection.2.1 .mcp "gen_embedding" (by decide) (by decide),
   (tool_timeout_selection.2.2.1 "foo" (by decide) (by decide)).1,
   (tool_timeout_selection.2.2.1 "foo" (by decide) (by decide)).2 .unknown
     (by decide)⟩

theorem sseStreamRun_replicate_fail (maxR : ℕ) :
    ∀ (k r : ℕ), r + k = maxR → 1 ≤ k →
    sseStreamRun maxR r (List.replicate k .connectFail) =
      ((List.range (k - 1)).map (fun n => min (2 ^ (r + n + 1)) 30), true) := by
  intro k
  induction k with
  | zero => intro r _ hk; exact absurd hk (by omega)
  | succ k ih =>
    intro r hr _
    rw [List.replicate_succ]
    show (if r < maxR then _ else ([], true)) = _
    rw [if_pos (show r < maxR by omega)]
    cases k with
    | zero =>
      have hnot : ¬ (r + 1 < maxR) := by omega
      simp only [List.replicate_zero, if_neg hnot]
      rfl
    | succ k2 =>
      have hlt : r + 1 < maxR := by omega
      simp only [if_pos hlt]
      rw [ih (r + 1) (by omega) (by omega)]
      simp only [Nat.add_sub_cancel]
      rw [List.range_succ_eq_map, List.map_cons, List.map_map]
      refine congrArg (fun l => (min (2 ^ (r + 1)) 30 :: l, true)) ?_
      refine List.map_congr_left ?_
      intro n _
      simp only [Function.comp_apply]
      have : r + 1 + n + 1 = r + (n + 1) + 1 := by omega
      rw [this]

/-- Claim C7, counterexample: after the first stream-leg failure the
transport waits `min(2 ** 1, 30) = 2` seconds, not 1 — the backoff sequence
is 2, 4, 8, …, 30, not 1, 2, 4, …. -/
theorem sse_backoff_first_wait_cex :
    sseStreamRun 3 0 [.connectFail] = ([2], false) ∧ (2 : ℕ) ≠ 1 := by
  refine ⟨by rfl, by decide⟩

/-- Claim C7 (amended: the wait after the n-th consecutive failure is
`min(2 ** n, 30)` seconds, i.e. 2, 4, 8, …, capped at 30): the stream loop
retries with that backoff, gives up after `max_retries` consecutive
failures, and a successful connection resets the failure count. -/
theorem sse_backoff_schedule (maxRetries : ℕ) (h : 1 ≤ maxRetries) :
    sseStreamRun maxRetries 0 (List.replicate maxRetries .connectFail) =
      ((List.range (maxRetries - 1)).map (fun n => min (2 ^ (n + 1)) 30),
       true) ∧
    ∀ rest, sseStreamRun maxRetries 0 (.streamEnd :: rest) =
      sseStreamRun maxRetries 0 rest := by
  constructor
  · have := sseStreamRun_replicate_fail maxRetries maxRetries 0 (by omega) h
    simpa using this
  · intro rest
    show (if 0 < maxRetries then _ else ([], true)) = _
    rw [if_pos (by omega)]

/-- Witness for C7's theorem at `max_retries = 3`: waits 2 then 4 seconds,
then gives up. -/
theorem sse_backoff_schedule_witness :
    sseStreamRun 3 0 (List.replicate 3 .connectFail) =
      ((List.range 2).map (fun n => min (2 ^ (n + 1)) 30), true) ∧
    sseStreamRun 3 0 [.streamEnd, .connectFail] =
      sseStreamRun 3 0 [.connectFail] :=
  ⟨(sse_backoff_schedule 3 (by decide)).1,
   (sse_backoff_schedule 3 (by decide)).2 [.connectFail]⟩

/-- Claim C8, counterexample: a first health-check failure (`retry_count`
0 → 1, below `max_retries` 3) moves the server to Reconnecting and emits a
status-change event, but NO reconnect task is scheduled — the source
schedules one only on the transition to Failed. -/
theorem health_check_reconnecting_no_task_cex :
    (healthCheckStep srvAlpha false 7).1.status = .reconnecting ∧
    (healthCheckStep srvAlpha false 7).1.retry_count = 1 ∧
    (healthCheckStep srvAlpha false 7).2.1 = true ∧
    (healthCheckStep srvAlpha false 7).2.2 = false := by
  refine ⟨by rfl, by rfl, by rfl, by rfl⟩

/-- Claim C8 (amended: the out-of-band reconnect task is scheduled on the
transition to Failed, not in the Reconnecting branch): on failure the retry
count is incremented and the status becomes Reconnecting while below
`max_retries` — with no task scheduled — and Failed otherwise, scheduling a
reconnect task exactly when the status changed to Failed; on success the
status becomes Connected, `last_ping` is stamped and the retry count resets
to 0. -/
theorem health_check_transitions (server : MCPServer) (now : ℕ) :
    ((healthCheckStep server true now).1 =
       { server with
         status := .connected
         last_ping := some now
         retry_count := 0 } ∧
     (healthCheckStep server true now).2.2 = false ∧
     ((healthCheckStep server true now).2.1 = true ↔
       server.status ≠ .connected)) ∧
    (server.retry_count + 1 < server.max_retries →
      (healthCheckStep server false now).1 =
        { server with
          status := .reconnecting
          retry_count := server.retry_count + 1 } ∧
      (healthCheckStep server false now).2.2 = false) ∧
    (server.max_retries ≤ server.retry_count + 1 →
      (healthCheckStep server false now).1 =
        { server with
          status := .failed
          retry_count := server.retry_count + 1 } ∧
      ((healthCheckStep server false now).2.2 = true ↔
        server.status ≠ .failed)) := by
  refine ⟨⟨?_, ?_, ?_⟩, ?_, ?_⟩
  · simp [healthCheckStep]
  · simp [healthCheckStep]
  · simp [healthCheckStep]
  · intro hlt
    have hnot : ¬ (server.retry_count + 1 ≥ server.max_retries) := by omega
    constructor
    · simp [healthCheckStep, if_neg hnot]
    · simp [healthCheckStep, if_neg hnot]
  · intro hge
    have hc : server.retry_count + 1 ≥ server.max_retries := hge
    constructor
    · simp [healthCheckStep, if_pos hc]
    · simp [healthCheckStep, if_pos hc]

/-- Witness for C8's theorem: `srvAlpha` (retry 0, max 3) on a failed check
goes to Reconnecting with no reconnect task; a server one failure short of
the cap goes to Failed with a task scheduled. -/
theorem health_check_transitions_witness :
    ((healthCheckStep srvAlpha false 9).1 =
       { srvAlpha with status := .reconnecting, retry_count := 1 } ∧
     (healthCheckStep srvAlpha false 9).2.2 = false) ∧
    ((healthCheckStep { srvAlpha with retry_count := 2 } false 9).1 =
       { srvAlpha with status := .failed, retry_count := 3 } ∧
     ((healthCheckStep { srvAlpha with retry_count := 2 } false 9).2.2 = true ↔
       ({ srvAlpha with retry_count := 2 } : MCPServer).status ≠ .failed)) :=
  ⟨(health_check_transitions srvAlpha 9).2.1 (by decide),
   (health_check_transitions { srvAlpha with retry_count := 2 } 9).2.2
     (by decide)⟩

theorem updateServerStats_avg (s : ServerStatistics) (t : ℚ) (b : Bool)
    (now : ℕ) :
    (updateServerStats s t b now).average_response_time =
      (s.average_response_time * (s.total_requests : ℚ) + t) /
        ((s.total_requests : ℚ) + 1) := by
  unfold updateServerStats
  by_cases h0 : s.total_requests = 0
  · simp [h0]
  · have h1 : ¬ (s.total_requests + 1 = 1) := by omega
    simp only [h1, if_false]
    push_cast
    ring_nf

theorem foldStats_product (ts : List ℚ) :
    ∀ s : ServerStatistics,
    (ts.foldl (fun acc t => updateServerStats acc t true 0) s).total_requests =
      s.total_requests + ts.length ∧
    (ts.foldl (fun acc t => updateServerStats acc t true 0)
        s).average_response_time *
      ((s.total_requests + ts.length : ℕ) : ℚ) =
      s.average_response_time * (s.total_requests : ℚ) + ts.sum := by
  induction ts with
  | nil =>
    intro s
    refine ⟨by simp, ?_⟩
    simp
  | cons t ts ih =>
    intro s
    simp only [List.foldl_cons]
    obtain ⟨ihTot, ihAvg⟩ := ih (updateServerStats s t true 0)
    have hTot : (updateServerStats s t true 0).total_requests =
        s.total_requests + 1 := rfl
    constructor
    · rw [ihTot, hTot]
      simp only [List.length_cons]
      omega
    · have hstep : (updateServerStats s t true 0).average_response_time *
          (((updateServerStats s t true 0).total_requests : ℕ) : ℚ) =
          s.average_response_time * (s.total_requests : ℚ) + t := by
        rw [updateServerStats_avg, hTot]
        have hpos : ((s.total_requests : ℚ) + 1) ≠ 0 := by
          positivity
        push_cast
        field_simp
      rw [hTot] at ihAvg hstep
      have hlen : s.total_requests + (t :: ts).length =
          s.total_requests + 1 + ts.length := by
        simp only [List.length_cons]
        omega
      rw [hlen, ihAvg, hstep]
      simp only [List.sum_cons]
      ring

/-- Claim C9: the per-server rolling average obeys
`new = (old · (n−1) + t) / n` with `n` the new total; counters bump by call
outcome; and `get_metrics` sums the per-server counters, weighting the
gateway average by request count (0 with no requests).  Consequently folding
a latency sequence into fresh statistics yields the exact arithmetic mean. -/
theorem stats_rolling_average_and_metrics :
    (∀ (s : ServerStatistics) (t : ℚ) (b : Bool) (now : ℕ),
      (updateServerStats s t b now).total_requests = s.total_requests + 1 ∧
      (updateServerStats s t b now).average_response_time =
        (s.average_response_time * (s.total_requests : ℚ) + t) /
          ((s.total_requests : ℚ) + 1) ∧
      (updateServerStats s t b now).successful_requests =
        s.successful_requests + (if b then 1 else 0) ∧
      (updateServerStats s t b now).failed_requests =
        s.failed_requests + (if b then 0 else 1)) ∧
    (∀ (stats : List ServerStatistics) (ac : ℕ),
      (getMetrics stats ac).total_requests =
        (stats.map (·.total_requests)).sum ∧
      (getMetrics stats ac).successful_requests =
        (stats.map (·.successful_requests)).sum ∧
      (getMetrics stats ac).failed_requests =
        (stats.map (·.failed_requests)).sum ∧
      (getMetrics stats ac).average_response_time =
        (if 0 < (stats.map (·.total_requests)).sum then
          (stats.map (fun s => s.average_response_time *
            (s.total_requests : ℚ))).sum /
            (((stats.map (·.total_requests)).sum : ℕ) : ℚ)
         else 0)) ∧
    (∀ ts : List ℚ,
      (ts.foldl (fun acc t => updateServerStats acc t true 0)
        (defaultStats "srv")).total_requests = ts.length ∧
      (ts.foldl (fun acc t => updateServerStats acc t true 0)
        (defaultStats "srv")).average_response_time =
        ts.sum / (ts.length : ℚ)) := by
  refine ⟨?_, ?_, ?_⟩
  · intro s t b now
    exact ⟨rfl, updateServerStats_avg s t b now, rfl, rfl⟩
  · intro stats ac
    refine ⟨rfl, rfl, rfl, ?_⟩
    simp [getMetrics]
  · intro ts
    obtain ⟨hTot, hAvg⟩ := foldStats_product ts (defaultStats "srv")
    refine ⟨by simpa [defaultStats] using hTot, ?_⟩
    rcases Nat.eq_zero_or_pos ts.length with hl | hl
    · rw [List.length_eq_zero.mp hl]
      simp [defaultStats]
    · have hne : ((ts.length : ℚ)) ≠ 0 := by positivity
      rw [eq_div_iff hne]
      simpa [defaultStats] using hAvg

theorem toolEntry_none (conflict : String → Bool) (sn : String) (t : MCPTool) :
    toolEntry "none" conflict sn t =
      { original_name := t.name, prefixed_name := t.name, server_name := sn
        description := t.description, parameters := t.inputSchema } := by
  simp [toolEntry]

/-- Claim C10, counterexample: the pydantic validator accepts an
`AggregatedTool` whose prefixed name is NOT `server_name ++ "." ++
original_name` (fields validate in declaration order, so `server_name` is
absent from `info.data` when `prefixed_name` is validated), and aggregation
under the `none` strategy succeeds and produces an entry rather than
raising. -/
theorem aggregated_tool_validator_accepts_cex :
    AggregatedTool.construct "t" "bogus" "s" "d" [] =
      .ok { original_name := "t", prefixed_name := "bogus", server_name := "s"
            description := "d", parameters := [] } ∧
    ("bogus" : String) ≠ "s" ++ "." ++ "t" ∧
    aggregateToolsMap "none" [srvNone] =
      [("t", { original_name := "t", prefixed_name := "t"
               server_name := "nsrv", description := "d"
               parameters := [] })] := by
  refine ⟨by rfl, by decide, by rfl⟩

/-- Claim C10 (amended: the `prefixed_name` validator never fires — pydantic
validates fields in declaration order, so `server_name` is missing from
`info.data` when `prefixed_name` is validated — and every construction
succeeds with the prefixed name as given): consequently the `none` strategy
aggregates with prefixed names equal to the originals, and the `short_name`
strategy produces `shortPrefix ++ "." ++ name` entries; neither raises. -/
theorem validator_skipped_all_strategies :
    (∀ (o p sn d : String) (params : JsonDict),
      AggregatedTool.construct o p sn d params =
        .ok { original_name := o, prefixed_name := p, server_name := sn
              description := d, parameters := params }) ∧
    (∀ (servers : List MCPServer), ∀ q ∈ aggregateToolsMap "none" servers,
      q.2.prefixed_name = q.2.original_name) ∧
    (∀ (conflict : String → Bool) (t : MCPTool),
      toolEntry "short_name" conflict "test-server" t =
        { original_name := t.name, prefixed_name := "test." ++ t.name
          server_name := "test-server", description := t.description
          parameters := t.inputSchema }) := by
  refine ⟨?_, ?_, ?_⟩
  · intro o p sn d params
    rfl
  · intro servers q hq
    obtain ⟨s, _, _, t, _, he⟩ := aggregateToolsMap_mem "none" servers hq
    have h2 : q.2 = toolEntry "none" (isToolConflict servers) s.name t :=
      congrArg Prod.snd he
    rw [h2, toolEntry_none]
  · intro conflict t
    have hp : generatePfx "short_name" "test-server" = "test" := by rfl
    simp [toolEntry, hp]

/-- Witness for C10's theorem: a concrete mismatched construction is
accepted, the concrete `none`-strategy entry keeps its original name, and
the `short_name` entry for server `test-server` is `test.x`. -/
theorem validator_skipped_witness :
    AggregatedTool.construct "t" "weird.name" "nsrv" "d" [] =
      .ok { original_name := "t", prefixed_name := "weird.name"
            server_name := "nsrv", description := "d", parameters := [] } ∧
    ("t", AggregatedTool.mk "t" "t" "nsrv" "d" []).2.prefixed_name =
      ("t", AggregatedTool.mk "t" "t" "nsrv" "d" []).2.original_name ∧
    toolEntry "short_name" (fun _ => false) "test-server" ⟨"x", "dx", []⟩ =
      { original_name := "x", prefixed_name := "test.x"
        server_name := "test-server", description := "dx", parameters := [] } :=
  ⟨validator_skipped_all_strategies.1 "t" "weird.name" "nsrv" "d" [],
   validator_skipped_all_strategies.2.1 [srvNone]
     ("t", AggregatedTool.mk "t" "t" "nsrv" "d" []) (by decide),
   validator_skipped_all_strategies.2.2 (fun _ => false) ⟨"x", "dx", []⟩⟩

end MCPPortal
